import Mathlib

/-!
# ProofPayEscrow — shallow embedding and verification

Shallow embedding of the `ProofPayEscrow` Solidity contract (the escrow core
of the tal3nt-escrow repository) together with a thin model of the
TypeScript service layer's read path.  Addresses and 32-byte escrow
identifiers are modelled as `Nat` (0 is the null address); uint256
arithmetic is `Nat` arithmetic with explicit reverts where Solidity 0.8
checked arithmetic would revert on overflow.  The external USDC ledger is
modelled by recording each outgoing `USDC.transfer(to, amount)` call in a
list; the contract treats transfers as succeeding (a failing transfer
reverts the whole transaction, which in this embedding corresponds to the
transaction never having happened).  The keccak-derived escrow identifier
is passed to `createEscrow` as an explicit argument: the contract only
requires that the slot at that identifier is unoccupied, never a specific
derivation.
-/

namespace ProofPay

/-- Modulus of the EVM word: uint256 arithmetic reverts at this bound. -/
def UINT256 : Nat := 2 ^ 256

/-- Auto-release period: `7 days` in seconds, from `AUTO_RELEASE_PERIOD`. -/
def AUTO_RELEASE_PERIOD : Nat := 604800

/-- Escrow lifecycle states, from `enum EscrowStatus`.  `CREATED` is the
zero member, so an untouched mapping slot decodes to `CREATED`. -/
inductive EscrowStatus where
  | CREATED
  | FUNDED
  | COMPLETED
  | DISPUTED
  | REFUNDED
  | CANCELLED
deriving DecidableEq, Repr

/-- One escrow record, from `struct Escrow`. -/
structure Escrow where
  buyer : Nat
  seller : Nat
  amount : Nat
  createdAt : Nat
  autoReleaseTime : Nat
  status : EscrowStatus
  disputeRaised : Bool
  disputeRaisedBy : Nat
deriving DecidableEq, Repr

/-- The all-zero record a Solidity mapping returns for an absent key. -/
def emptyEscrow : Escrow :=
  { buyer := 0, seller := 0, amount := 0, createdAt := 0, autoReleaseTime := 0
    status := .CREATED, disputeRaised := false, disputeRaisedBy := 0 }

/-- Contract storage: the `escrows` mapping (total function with the
all-zero default), the fee configuration and the `Ownable` owner. -/
structure ContractState where
  escrows : Nat → Escrow
  platformFeeBps : Nat
  feeCollector : Nat
  owner : Nat

/-- Error taxonomy of the spec; each `require` message of the contract is
mapped to the matching kind.  `Overflow` stands for the Solidity 0.8
checked-arithmetic revert. -/
inductive Err where
  | InvalidInput
  | NotFound
  | AlreadyExists
  | InvalidState
  | Unauthorized
  | Conflict
  | TransferFailed
  | ConfigurationRejected
  | Overflow
deriving DecidableEq, Repr

/-- One outgoing `USDC.transfer(to, amount)` call made by the contract:
`dest` is the recipient address. -/
structure Transfer where
  dest : Nat
  amount : Nat
deriving DecidableEq, Repr

/-- Store a record at one key of the `escrows` mapping. -/
def setEscrow (s : ContractState) (escrowId : Nat) (e : Escrow) : ContractState :=
  { s with escrows := Function.update s.escrows escrowId e }

/-- Contract state right after the constructor ran: empty mapping, the
default 50 bps fee, the given fee collector and deployer-owner. -/
def initState (owner feeCollector : Nat) : ContractState :=
  { escrows := fun _ => emptyEscrow, platformFeeBps := 50
    feeCollector := feeCollector, owner := owner }

/-- Embedding of `createEscrow(buyer, seller, amount)`.  The keccak-derived
identifier is the explicit `escrowId` argument; the require order follows
the source: addresses, distinctness, amount, collision, then the checked
addition computing `autoReleaseTime`.  `now` is `block.timestamp`. -/
def createEscrow (s : ContractState) (buyer seller amount now escrowId : Nat) :
    Except Err (ContractState × List Transfer) :=
  if buyer = 0 ∨ seller = 0 then .error .InvalidInput
  else if buyer = seller then .error .InvalidInput
  else if amount = 0 then .error .InvalidInput
  else if (s.escrows escrowId).buyer ≠ 0 then .error .AlreadyExists
  else if UINT256 ≤ now + AUTO_RELEASE_PERIOD then .error .Overflow
  else .ok (setEscrow s escrowId
      { buyer := buyer, seller := seller, amount := amount, createdAt := now
        autoReleaseTime := now + AUTO_RELEASE_PERIOD, status := .CREATED
        disputeRaised := false, disputeRaisedBy := 0 }, [])

/-- Embedding of `fundEscrow`.  The incoming `transferFrom` moves funds from
the buyer into custody and is not an outgoing payout, so the payout list is
empty. -/
def fundEscrow (s : ContractState) (sender escrowId : Nat) :
    Except Err (ContractState × List Transfer) :=
  let escrow := s.escrows escrowId
  if escrow.status ≠ .CREATED then .error .InvalidState
  else if sender ≠ escrow.buyer then .error .Unauthorized
  else .ok (setEscrow s escrowId { escrow with status := .FUNDED }, [])

/-- Embedding of the internal `_completeEscrow`: compute the platform fee,
mark the escrow `COMPLETED` and pay seller then fee collector.  Both
transfers are attempted unconditionally, exactly as in the source. -/
def completeEscrow (s : ContractState) (escrowId : Nat) :
    Except Err (ContractState × List Transfer) :=
  let escrow := s.escrows escrowId
  if UINT256 ≤ escrow.amount * s.platformFeeBps then .error .Overflow
  else
    let platformFee := escrow.amount * s.platformFeeBps / 10000
    let sellerAmount := escrow.amount - platformFee
    .ok (setEscrow s escrowId { escrow with status := .COMPLETED },
      [⟨escrow.seller, sellerAmount⟩, ⟨s.feeCollector, platformFee⟩])

/-- Embedding of `releaseFunds` (manual release by the buyer). -/
def releaseFunds (s : ContractState) (sender escrowId : Nat) :
    Except Err (ContractState × List Transfer) :=
  let escrow := s.escrows escrowId
  if escrow.status ≠ .FUNDED then .error .InvalidState
  else if sender ≠ escrow.buyer then .error .Unauthorized
  else if escrow.disputeRaised then .error .InvalidState
  else completeEscrow s escrowId

/-- Embedding of `autoRelease`.  Any caller may invoke it (its body never
reads `msg.sender`); `now` is `block.timestamp`. -/
def autoRelease (s : ContractState) (now escrowId : Nat) :
    Except Err (ContractState × List Transfer) :=
  let escrow := s.escrows escrowId
  if escrow.status ≠ .FUNDED then .error .InvalidState
  else if now < escrow.autoReleaseTime then .error .InvalidState
  else if escrow.disputeRaised then .error .InvalidState
  else completeEscrow s escrowId

/-- Embedding of `raiseDispute`. -/
def raiseDispute (s : ContractState) (sender escrowId : Nat) :
    Except Err (ContractState × List Transfer) :=
  let escrow := s.escrows escrowId
  if escrow.status ≠ .FUNDED then .error .InvalidState
  else if sender ≠ escrow.buyer ∧ sender ≠ escrow.seller then .error .Unauthorized
  else if escrow.disputeRaised then .error .InvalidState
  else .ok (setEscrow s escrowId
      { escrow with status := .DISPUTED, disputeRaised := true
                    disputeRaisedBy := sender }, [])

/-- Embedding of `resolveDispute(escrowId, buyerPercentage)`.  The
`onlyOwner` modifier runs before the body.  The buyer transfer is skipped
when the computed buyer amount is zero and the seller/fee pair is skipped
when the seller amount is zero, exactly as the source's `if` guards do;
note the fee transfer inside the seller branch is unconditional. -/
def resolveDispute (s : ContractState) (sender escrowId buyerPercentage : Nat) :
    Except Err (ContractState × List Transfer) :=
  if sender ≠ s.owner then .error .Unauthorized
  else
    let escrow := s.escrows escrowId
    if escrow.status ≠ .DISPUTED then .error .InvalidState
    else if 100 < buyerPercentage then .error .InvalidInput
    else if UINT256 ≤ escrow.amount * buyerPercentage then .error .Overflow
    else
      let buyerAmount := escrow.amount * buyerPercentage / 100
      let sellerAmount := escrow.amount - buyerAmount
      let buyerTr : List Transfer :=
        if 0 < buyerAmount then [⟨escrow.buyer, buyerAmount⟩] else []
      if 0 < sellerAmount then
        if UINT256 ≤ sellerAmount * s.platformFeeBps then .error .Overflow
        else
          let platformFee := sellerAmount * s.platformFeeBps / 10000
          let sellerNet := sellerAmount - platformFee
          .ok (setEscrow s escrowId { escrow with status := .COMPLETED },
            buyerTr ++ [⟨escrow.seller, sellerNet⟩, ⟨s.feeCollector, platformFee⟩])
      else
        .ok (setEscrow s escrowId { escrow with status := .COMPLETED }, buyerTr)

/-- Embedding of `updatePlatformFee` (owner only, bounded to 1000 bps). -/
def updatePlatformFee (s : ContractState) (sender newFeeBps : Nat) :
    Except Err (ContractState × List Transfer) :=
  if sender ≠ s.owner then .error .Unauthorized
  else if 1000 < newFeeBps then .error .ConfigurationRejected
  else .ok ({ s with platformFeeBps := newFeeBps }, [])

/-- Embedding of `updateFeeCollector` (owner only, non-null). -/
def updateFeeCollector (s : ContractState) (sender newCollector : Nat) :
    Except Err (ContractState × List Transfer) :=
  if sender ≠ s.owner then .error .Unauthorized
  else if newCollector = 0 then .error .InvalidInput
  else .ok ({ s with feeCollector := newCollector }, [])

/-- Projection returned by the view function `getEscrow` (every field of the
record except `disputeRaisedBy`). -/
structure EscrowView where
  buyer : Nat
  seller : Nat
  amount : Nat
  createdAt : Nat
  autoReleaseTime : Nat
  status : EscrowStatus
  disputeRaised : Bool
deriving DecidableEq, Repr

/-- Embedding of the view function `getEscrow`: a total read of the mapping
slot, returning the all-zero record for a never-created identifier. -/
def getEscrow (s : ContractState) (escrowId : Nat) : EscrowView :=
  let e := s.escrows escrowId
  { buyer := e.buyer, seller := e.seller, amount := e.amount
    createdAt := e.createdAt, autoReleaseTime := e.autoReleaseTime
    status := e.status, disputeRaised := e.disputeRaised }

/-- View of the all-zero mapping slot. -/
def emptyEscrowView : EscrowView :=
  { buyer := 0, seller := 0, amount := 0, createdAt := 0, autoReleaseTime := 0
    status := .CREATED, disputeRaised := false }

/-- Embedding of `EscrowService.getEscrow` from
`src/services/escrow.service.ts`: a single-row database read whose `data`
is returned as-is — `none` (null) for an unknown identifier, never a typed
failure. -/
def serviceGetEscrow (db : Nat → Option Escrow) (escrowId : Nat) : Option Escrow :=
  db escrowId

/-- One invocation of a public mutating entry point of the contract,
with `msg.sender` and `block.timestamp` made explicit where the body
reads them. -/
inductive Op where
  | create (buyer seller amount now escrowId : Nat)
  | fund (sender escrowId : Nat)
  | release (sender escrowId : Nat)
  | autoRel (now escrowId : Nat)
  | dispute (sender escrowId : Nat)
  | resolve (sender escrowId buyerPercentage : Nat)
  | setFee (sender newFeeBps : Nat)
  | setCollector (sender newCollector : Nat)
deriving DecidableEq, Repr

/-- Dispatch an operation to its embedding. -/
def applyOp (s : ContractState) : Op → Except Err (ContractState × List Transfer)
  | .create buyer seller amount now escrowId =>
      createEscrow s buyer seller amount now escrowId
  | .fund sender escrowId => fundEscrow s sender escrowId
  | .release sender escrowId => releaseFunds s sender escrowId
  | .autoRel now escrowId => autoRelease s now escrowId
  | .dispute sender escrowId => raiseDispute s sender escrowId
  | .resolve sender escrowId p => resolveDispute s sender escrowId p
  | .setFee sender f => updatePlatformFee s sender f
  | .setCollector sender c => updateFeeCollector s sender c

/-- Environmental fact of the EVM: `msg.sender` is never the null address.
Operations whose body reads `msg.sender` carry this side condition. -/
def opSenderNonzero : Op → Prop
  | .create _ _ _ _ _ => True
  | .fund sender _ => sender ≠ 0
  | .release sender _ => sender ≠ 0
  | .autoRel _ _ => True
  | .dispute sender _ => sender ≠ 0
  | .resolve sender _ _ => sender ≠ 0
  | .setFee sender _ => sender ≠ 0
  | .setCollector sender _ => sender ≠ 0

instance (op : Op) : Decidable (opSenderNonzero op) := by
  cases op <;> simp only [opSenderNonzero] <;> infer_instance

/-- State after attempting one operation: a revert leaves storage as it
was. -/
def stepState (s : ContractState) (op : Op) : ContractState :=
  match applyOp s op with
  | .ok (s', _) => s'
  | .error _ => s

/-- State after attempting a sequence of operations in order. -/
def runOps (s : ContractState) (ops : List Op) : ContractState :=
  ops.foldl stepState s

/-- Contract states reachable from deployment (non-null owner and fee
collector, as the constructor requires) through successful operations by
non-null senders. -/
inductive Reachable : ContractState → Prop where
  | init (owner feeCollector : Nat) (howner : owner ≠ 0) (hfc : feeCollector ≠ 0) :
      Reachable (initState owner feeCollector)
  | step {s s' : ContractState} {tr : List Transfer} (op : Op)
      (hr : Reachable s) (hsender : opSenderNonzero op)
      (h : applyOp s op = .ok (s', tr)) : Reachable s'

/-- Transfers `_completeEscrow` emits: seller net amount then platform fee,
both unconditionally. -/
def releasePayout (seller feeCollector amount bps : Nat) : List Transfer :=
  [⟨seller, amount - amount * bps / 10000⟩, ⟨feeCollector, amount * bps / 10000⟩]

/-- Transfers `resolveDispute` emits: the buyer share (skipped when zero),
then, when the seller share is positive, seller net and platform fee. -/
def disputePayout (buyer seller feeCollector amount p bps : Nat) : List Transfer :=
  let buyerAmount := amount * p / 100
  let sellerAmount := amount - buyerAmount
  (if 0 < buyerAmount then [⟨buyer, buyerAmount⟩] else []) ++
  (if 0 < sellerAmount then
      [⟨seller, sellerAmount - sellerAmount * bps / 10000⟩,
       ⟨feeCollector, sellerAmount * bps / 10000⟩]
    else [])

/-- Height of a status in the lifecycle order
`Created < Funded < {Completed, Disputed, Refunded, Cancelled}`. -/
def statusRank : EscrowStatus → Nat
  | .CREATED => 0
  | .FUNDED => 1
  | .COMPLETED => 2
  | .DISPUTED => 2
  | .REFUNDED => 2
  | .CANCELLED => 2

/-- The three terminal lifecycle states. -/
def terminalStatus (st : EscrowStatus) : Prop :=
  st = .COMPLETED ∨ st = .REFUNDED ∨ st = .CANCELLED

/-- Per-slot invariant of reachable states: an unoccupied slot is all-zero,
an occupied one has valid immutable fields, and a not-yet-disputed status
carries a clear dispute flag. -/
def slotOk (e : Escrow) : Prop :=
  (e.buyer = 0 → e = emptyEscrow) ∧
  (e.buyer ≠ 0 → e.seller ≠ 0 ∧ e.buyer ≠ e.seller ∧ 0 < e.amount ∧
      e.autoReleaseTime = e.createdAt + AUTO_RELEASE_PERIOD) ∧
  ((e.status = .CREATED ∨ e.status = .FUNDED) → e.disputeRaised = false)

/-- Invariant of reachable contract states. -/
def GoodState (s : ContractState) : Prop :=
  (∀ escrowId, slotOk (s.escrows escrowId)) ∧
  s.platformFeeBps ≤ 1000 ∧ s.feeCollector ≠ 0 ∧ s.owner ≠ 0

/-- Transfers emitted by one attempted operation (none when it reverts). -/
def stepTransfers (s : ContractState) (op : Op) : List Transfer :=
  match applyOp s op with
  | .ok (_, tr) => tr
  | .error _ => []

/-- Concrete state used to instantiate theorems: buyer 1 and seller 2 hold a
funded escrow of 1000000 at slot 9; fee collector 5, owner 7, fee 50 bps. -/
def wFunded : ContractState :=
  runOps (initState 7 5) [.create 1 2 1000000 0 9, .fund 1 9]

/-- Concrete state: the `wFunded` escrow after the buyer raised a dispute. -/
def wDisputed : ContractState :=
  runOps (initState 7 5) [.create 1 2 1000000 0 9, .fund 1 9, .dispute 1 9]

/-- Concrete state: the `wFunded` escrow after the buyer released it, so the
escrow at slot 9 is in the terminal `COMPLETED` status. -/
def wCompleted : ContractState :=
  runOps (initState 7 5) [.create 1 2 1000000 0 9, .fund 1 9, .release 1 9]

/-- Concrete state: a funded escrow of 100 at slot 9 after the owner set the
platform fee to 0 bps. -/
def sFeeZero : ContractState :=
  runOps (initState 7 5) [.create 1 2 100 0 9, .fund 1 9, .setFee 7 0]

/-! ## Basic lemmas about storage updates and success inversions -/

lemma setEscrow_escrows (s : ContractState) (escrowId : Nat) (e : Escrow) (j : Nat) :
    (setEscrow s escrowId e).escrows j = if j = escrowId then e else s.escrows j := by
  simp [setEscrow, Function.update_apply]

lemma setEscrow_escrows_self (s : ContractState) (escrowId : Nat) (e : Escrow) :
    (setEscrow s escrowId e).escrows escrowId = e := by
  simp [setEscrow]

lemma setEscrow_escrows_other (s : ContractState) (escrowId : Nat) (e : Escrow)
    {j : Nat} (hj : j ≠ escrowId) : (setEscrow s escrowId e).escrows j = s.escrows j := by
  simp [setEscrow, Function.update_apply, hj]

lemma setEscrow_config (s : ContractState) (escrowId : Nat) (e : Escrow) :
    (setEscrow s escrowId e).platformFeeBps = s.platformFeeBps ∧
    (setEscrow s escrowId e).feeCollector = s.feeCollector ∧
    (setEscrow s escrowId e).owner = s.owner := ⟨rfl, rfl, rfl⟩

lemma createEscrow_ok {s : ContractState} {b sl a n eid : Nat} {s' : ContractState}
    {tr : List Transfer} (h : createEscrow s b sl a n eid = .ok (s', tr)) :
    b ≠ 0 ∧ sl ≠ 0 ∧ b ≠ sl ∧ a ≠ 0 ∧ (s.escrows eid).buyer = 0 ∧
    n + AUTO_RELEASE_PERIOD < UINT256 ∧
    s' = setEscrow s eid
      { buyer := b, seller := sl, amount := a, createdAt := n,
        autoReleaseTime := n + AUTO_RELEASE_PERIOD, status := .CREATED,
        disputeRaised := false, disputeRaisedBy := 0 } ∧ tr = [] := by
  simp only [createEscrow] at h
  split_ifs at h with h1 h2 h3 h4 h5
  push_neg at h1 h4 h5
  simp only [Except.ok.injEq, Prod.mk.injEq] at h
  exact ⟨h1.1, h1.2, h2, h3, h4, h5, h.1.symm, h.2.symm⟩

lemma fundEscrow_ok {s : ContractState} {c eid : Nat} {s' : ContractState}
    {tr : List Transfer} (h : fundEscrow s c eid = .ok (s', tr)) :
    (s.escrows eid).status = .CREATED ∧ c = (s.escrows eid).buyer ∧
    s' = setEscrow s eid { s.escrows eid with status := .FUNDED } ∧ tr = [] := by
  simp only [fundEscrow] at h
  split_ifs at h with h1 h2
  push_neg at h1 h2
  simp only [Except.ok.injEq, Prod.mk.injEq] at h
  exact ⟨h1, h2, h.1.symm, h.2.symm⟩

lemma completeEscrow_ok {s : ContractState} {eid : Nat} {s' : ContractState}
    {tr : List Transfer} (h : completeEscrow s eid = .ok (s', tr)) :
    (s.escrows eid).amount * s.platformFeeBps < UINT256 ∧
    s' = setEscrow s eid { s.escrows eid with status := .COMPLETED } ∧
    tr = releasePayout (s.escrows eid).seller s.feeCollector
      (s.escrows eid).amount s.platformFeeBps := by
  simp only [completeEscrow] at h
  split_ifs at h with h1
  push_neg at h1
  simp only [Except.ok.injEq, Prod.mk.injEq] at h
  exact ⟨h1, h.1.symm, h.2.symm ▸ rfl⟩

lemma releaseFunds_ok {s : ContractState} {c eid : Nat} {s' : ContractState}
    {tr : List Transfer} (h : releaseFunds s c eid = .ok (s', tr)) :
    (s.escrows eid).status = .FUNDED ∧ c = (s.escrows eid).buyer ∧
    (s.escrows eid).disputeRaised = false ∧ completeEscrow s eid = .ok (s', tr) := by
  simp only [releaseFunds] at h
  split_ifs at h with h1 h2 h3
  push_neg at h1 h2
  exact ⟨h1, h2, by simpa using h3, h⟩

lemma autoRelease_ok {s : ContractState} {now eid : Nat} {s' : ContractState}
    {tr : List Transfer} (h : autoRelease s now eid = .ok (s', tr)) :
    (s.escrows eid).status = .FUNDED ∧ (s.escrows eid).autoReleaseTime ≤ now ∧
    (s.escrows eid).disputeRaised = false ∧ completeEscrow s eid = .ok (s', tr) := by
  simp only [autoRelease] at h
  split_ifs at h with h1 h2 h3
  push_neg at h1 h2
  exact ⟨h1, h2, by simpa using h3, h⟩

lemma raiseDispute_ok {s : ContractState} {c eid : Nat} {s' : ContractState}
    {tr : List Transfer} (h : raiseDispute s c eid = .ok (s', tr)) :
    (s.escrows eid).status = .FUNDED ∧
    (c = (s.escrows eid).buyer ∨ c = (s.escrows eid).seller) ∧
    (s.escrows eid).disputeRaised = false ∧
    s' = setEscrow s eid { s.escrows eid with
      status := .DISPUTED, disputeRaised := true, disputeRaisedBy := c } ∧ tr = [] := by
  simp only [raiseDispute] at h
  split_ifs at h with h1 h2 h3
  push_neg at h1
  simp only [not_and_or, not_not] at h2
  simp only [Except.ok.injEq, Prod.mk.injEq] at h
  exact ⟨h1, h2, by simpa using h3, h.1.symm, h.2.symm⟩

lemma resolveDispute_eq (s : ContractState) (c eid p : Nat) :
    resolveDispute s c eid p =
    (if c ≠ s.owner then .error .Unauthorized
     else if (s.escrows eid).status ≠ .DISPUTED then .error .InvalidState
     else if 100 < p then .error .InvalidInput
     else if UINT256 ≤ (s.escrows eid).amount * p then .error .Overflow
     else if 0 < (s.escrows eid).amount - (s.escrows eid).amount * p / 100 ∧
         UINT256 ≤ ((s.escrows eid).amount - (s.escrows eid).amount * p / 100) * s.platformFeeBps
       then .error .Overflow
     else .ok (setEscrow s eid { s.escrows eid with status := .COMPLETED },
         disputePayout (s.escrows eid).buyer (s.escrows eid).seller s.feeCollector
           (s.escrows eid).amount p s.platformFeeBps)) := by
  simp only [resolveDispute, disputePayout]
  split_ifs with h1 h2 h3 h4 h5 h6 h7 <;> simp_all

lemma resolveDispute_ok {s : ContractState} {c eid p : Nat} {s' : ContractState}
    {tr : List Transfer} (h : resolveDispute s c eid p = .ok (s', tr)) :
    c = s.owner ∧ (s.escrows eid).status = .DISPUTED ∧ p ≤ 100 ∧
    (s.escrows eid).amount * p < UINT256 ∧
    s' = setEscrow s eid { s.escrows eid with status := .COMPLETED } ∧
    tr = disputePayout (s.escrows eid).buyer (s.escrows eid).seller s.feeCollector
      (s.escrows eid).amount p s.platformFeeBps := by
  rw [resolveDispute_eq] at h
  split_ifs at h with h1 h2 h3 h4 h5
  push_neg at h1 h2 h3 h4
  simp only [Except.ok.injEq, Prod.mk.injEq] at h
  exact ⟨h1, h2, h3, h4, h.1.symm, h.2.symm⟩

lemma updatePlatformFee_ok {s : ContractState} {c f : Nat} {s' : ContractState}
    {tr : List Transfer} (h : updatePlatformFee s c f = .ok (s', tr)) :
    c = s.owner ∧ f ≤ 1000 ∧ s' = { s with platformFeeBps := f } ∧ tr = [] := by
  simp only [updatePlatformFee] at h
  split_ifs at h with h1 h2
  push_neg at h1 h2
  simp only [Except.ok.injEq, Prod.mk.injEq] at h
  exact ⟨h1, h2, h.1.symm, h.2.symm⟩

lemma updateFeeCollector_ok {s : ContractState} {c a : Nat} {s' : ContractState}
    {tr : List Transfer} (h : updateFeeCollector s c a = .ok (s', tr)) :
    c = s.owner ∧ a ≠ 0 ∧ s' = { s with feeCollector := a } ∧ tr = [] := by
  simp only [updateFeeCollector] at h
  split_ifs at h with h1 h2
  push_neg at h1
  simp only [Except.ok.injEq, Prod.mk.injEq] at h
  exact ⟨h1, h2, h.1.symm, h.2.symm⟩

/-! ## Invariant preservation -/

lemma slotOk_empty : slotOk emptyEscrow := by
  refine ⟨fun _ => rfl, fun hb => absurd rfl hb, fun _ => rfl⟩

lemma goodState_init {owner fc : Nat} (ho : owner ≠ 0) (hfc : fc ≠ 0) :
    GoodState (initState owner fc) := by
  refine ⟨fun _ => slotOk_empty, by norm_num [initState], hfc, ho⟩

lemma goodState_setEscrow {s : ContractState} {eid : Nat} {e : Escrow}
    (hg : GoodState s) (he : slotOk e) : GoodState (setEscrow s eid e) := by
  obtain ⟨hslots, hfee, hfc, ho⟩ := hg
  refine ⟨fun j => ?_, hfee, hfc, ho⟩
  rw [setEscrow_escrows]
  split_ifs with hj
  · exact he
  · exact hslots j

lemma slotOk_buyer_ne_zero {e : Escrow} (he : slotOk e)
    (hst : e.status ≠ .CREATED) : e.buyer ≠ 0 := by
  intro hb
  refine hst ?_
  rw [he.1 hb]
  rfl

lemma goodState_step {s : ContractState} {op : Op} {s' : ContractState}
    {tr : List Transfer} (hg : GoodState s) (hsend : opSenderNonzero op)
    (h : applyOp s op = .ok (s', tr)) : GoodState s' := by
  obtain ⟨hslots, hfee, hfc, ho⟩ := hg
  cases op with
  | create b sl a n eid =>
      obtain ⟨hb, hsl, hbsl, ha, _, _, rfl, _⟩ := createEscrow_ok h
      exact goodState_setEscrow ⟨hslots, hfee, hfc, ho⟩
        ⟨fun habs => absurd habs hb,
         fun _ => ⟨hsl, hbsl, Nat.pos_of_ne_zero ha, rfl⟩,
         fun _ => rfl⟩
  | fund c eid =>
      obtain ⟨hst, hc, rfl, _⟩ := fundEscrow_ok h
      have he := hslots eid
      have hb : (s.escrows eid).buyer ≠ 0 := hc ▸ hsend
      refine goodState_setEscrow ⟨hslots, hfee, hfc, ho⟩
        ⟨fun habs => absurd habs hb, fun _ => he.2.1 hb, fun _ => ?_⟩
      exact he.2.2 (Or.inl hst)
  | release c eid =>
      obtain ⟨hst, hc, hd, hcomp⟩ := releaseFunds_ok h
      obtain ⟨_, rfl, _⟩ := completeEscrow_ok hcomp
      have he := hslots eid
      have hb : (s.escrows eid).buyer ≠ 0 := slotOk_buyer_ne_zero he (by simp [hst])
      exact goodState_setEscrow ⟨hslots, hfee, hfc, ho⟩
        ⟨fun habs => absurd habs hb, fun _ => he.2.1 hb, by simp⟩
  | autoRel n eid =>
      obtain ⟨hst, _, hd, hcomp⟩ := autoRelease_ok h
      obtain ⟨_, rfl, _⟩ := completeEscrow_ok hcomp
      have he := hslots eid
      have hb : (s.escrows eid).buyer ≠ 0 := slotOk_buyer_ne_zero he (by simp [hst])
      exact goodState_setEscrow ⟨hslots, hfee, hfc, ho⟩
        ⟨fun habs => absurd habs hb, fun _ => he.2.1 hb, by simp⟩
  | dispute c eid =>
      obtain ⟨hst, hc, hd, rfl, _⟩ := raiseDispute_ok h
      have he := hslots eid
      have hb : (s.escrows eid).buyer ≠ 0 := slotOk_buyer_ne_zero he (by simp [hst])
      exact goodState_setEscrow ⟨hslots, hfee, hfc, ho⟩
        ⟨fun habs => absurd habs hb, fun _ => he.2.1 hb, by simp⟩
  | resolve c eid p =>
      obtain ⟨hc, hst, _, _, rfl, _⟩ := resolveDispute_ok h
      have he := hslots eid
      have hb : (s.escrows eid).buyer ≠ 0 := slotOk_buyer_ne_zero he (by simp [hst])
      exact goodState_setEscrow ⟨hslots, hfee, hfc, ho⟩
        ⟨fun habs => absurd habs hb, fun _ => he.2.1 hb, by simp⟩
  | setFee c f =>
      obtain ⟨_, hf, rfl, _⟩ := updatePlatformFee_ok h
      exact ⟨hslots, hf, hfc, ho⟩
  | setCollector c a =>
      obtain ⟨_, ha, rfl, _⟩ := updateFeeCollector_ok h
      exact ⟨hslots, hfee, ha, ho⟩

lemma reachable_good {s : ContractState} (hr : Reachable s) : GoodState s := by
  induction hr with
  | init owner fc ho hfc => exact goodState_init ho hfc
  | step op hr hsend h ih => exact goodState_step ih hsend h

/-! ## Step lemmas used by the transition claims -/

lemma stepState_eq_of_ok {s : ContractState} {op : Op} {s' : ContractState}
    {tr : List Transfer} (h : applyOp s op = .ok (s', tr)) : stepState s op = s' := by
  simp [stepState, h]

lemma stepState_eq_of_error {s : ContractState} {op : Op} {e : Err}
    (h : applyOp s op = .error e) : stepState s op = s := by
  simp [stepState, h]

lemma reachable_stepState {s : ContractState} {op : Op} (hr : Reachable s)
    (hsend : opSenderNonzero op) : Reachable (stepState s op) := by
  cases h : applyOp s op with
  | ok p =>
      obtain ⟨s', tr⟩ := p
      rw [stepState_eq_of_ok h]
      exact .step op hr hsend h
  | error e =>
      rw [stepState_eq_of_error h]
      exact hr

lemma reachable_runOps {s : ContractState} {ops : List Op} (hr : Reachable s)
    (hall : ∀ op ∈ ops, opSenderNonzero op) : Reachable (runOps s ops) := by
  induction ops generalizing s with
  | nil => exact hr
  | cons op ops ih =>
      exact ih (reachable_stepState hr (hall op (by simp)))
        (fun o ho => hall o (by simp [ho]))

lemma step_rank_mono {s : ContractState} {op : Op} {s' : ContractState}
    {tr : List Transfer} (hg : GoodState s) (h : applyOp s op = .ok (s', tr))
    (j : Nat) :
    statusRank (s.escrows j).status ≤ statusRank (s'.escrows j).status := by
  cases op with
  | create b sl a n eid =>
      obtain ⟨_, _, _, _, hb0, _, rfl, _⟩ := createEscrow_ok h
      rw [setEscrow_escrows]
      split_ifs with hj
      · subst hj
        rw [(hg.1 j).1 hb0]
        exact le_refl _
      · exact le_refl _
  | fund c eid =>
      obtain ⟨hst, _, rfl, _⟩ := fundEscrow_ok h
      rw [setEscrow_escrows]
      split_ifs with hj
      · subst hj
        rw [hst]
        simp [statusRank]
      · exact le_refl _
  | release c eid =>
      obtain ⟨hst, _, _, hcomp⟩ := releaseFunds_ok h
      obtain ⟨_, rfl, _⟩ := completeEscrow_ok hcomp
      rw [setEscrow_escrows]
      split_ifs with hj
      · subst hj
        rw [hst]
        simp [statusRank]
      · exact le_refl _
  | autoRel n eid =>
      obtain ⟨hst, _, _, hcomp⟩ := autoRelease_ok h
      obtain ⟨_, rfl, _⟩ := completeEscrow_ok hcomp
      rw [setEscrow_escrows]
      split_ifs with hj
      · subst hj
        rw [hst]
        simp [statusRank]
      · exact le_refl _
  | dispute c eid =>
      obtain ⟨hst, _, _, rfl, _⟩ := raiseDispute_ok h
      rw [setEscrow_escrows]
      split_ifs with hj
      · subst hj
        rw [hst]
        simp [statusRank]
      · exact le_refl _
  | resolve c eid p =>
      obtain ⟨_, hst, _, _, rfl, _⟩ := resolveDispute_ok h
      rw [setEscrow_escrows]
      split_ifs with hj
      · subst hj
        rw [hst]
        simp [statusRank]
      · exact le_refl _
  | setFee c f =>
      obtain ⟨_, _, rfl, _⟩ := updatePlatformFee_ok h
      exact le_refl _
  | setCollector c a =>
      obtain ⟨_, _, rfl, _⟩ := updateFeeCollector_ok h
      exact le_refl _

lemma runOps_rank_mono {s : ContractState} {ops : List Op} (hr : Reachable s)
    (hall : ∀ op ∈ ops, opSenderNonzero op) (j : Nat) :
    statusRank (s.escrows j).status ≤ statusRank ((runOps s ops).escrows j).status := by
  induction ops generalizing s with
  | nil => exact le_refl _
  | cons op ops ih =>
      refine le_trans ?_ (ih (reachable_stepState hr (hall op (by simp)))
        (fun o ho => hall o (by simp [ho])))
      cases h : applyOp s op with
      | ok p =>
          obtain ⟨s', tr⟩ := p
          rw [stepState_eq_of_ok h]
          exact step_rank_mono (reachable_good hr) h j
      | error e =>
          rw [stepState_eq_of_error h]

lemma step_terminal_frozen {s : ContractState} {op : Op} {s' : ContractState}
    {tr : List Transfer} {j : Nat} (hg : GoodState s)
    (hterm : terminalStatus (s.escrows j).status)
    (h : applyOp s op = .ok (s', tr)) : s'.escrows j = s.escrows j := by
  cases op with
  | create b sl a n eid =>
      obtain ⟨_, _, _, _, hb0, _, rfl, _⟩ := createEscrow_ok h
      rw [setEscrow_escrows]
      split_ifs with hj
      · subst hj
        rw [(hg.1 j).1 hb0] at hterm
        simp [terminalStatus, emptyEscrow] at hterm
      · rfl
  | fund c eid =>
      obtain ⟨hst, _, rfl, _⟩ := fundEscrow_ok h
      rw [setEscrow_escrows]
      split_ifs with hj
      · subst hj
        rw [hst] at hterm
        simp [terminalStatus] at hterm
      · rfl
  | release c eid =>
      obtain ⟨hst, _, _, hcomp⟩ := releaseFunds_ok h
      obtain ⟨_, rfl, _⟩ := completeEscrow_ok hcomp
      rw [setEscrow_escrows]
      split_ifs with hj
      · subst hj
        rw [hst] at hterm
        simp [terminalStatus] at hterm
      · rfl
  | autoRel n eid =>
      obtain ⟨hst, _, _, hcomp⟩ := autoRelease_ok h
      obtain ⟨_, rfl, _⟩ := completeEscrow_ok hcomp
      rw [setEscrow_escrows]
      split_ifs with hj
      · subst hj
        rw [hst] at hterm
        simp [terminalStatus] at hterm
      · rfl
  | dispute c eid =>
      obtain ⟨hst, _, _, rfl, _⟩ := raiseDispute_ok h
      rw [setEscrow_escrows]
      split_ifs with hj
      · subst hj
        rw [hst] at hterm
        simp [terminalStatus] at hterm
      · rfl
  | resolve c eid p =>
      obtain ⟨_, hst, _, _, rfl, _⟩ := resolveDispute_ok h
      rw [setEscrow_escrows]
      split_ifs with hj
      · subst hj
        rw [hst] at hterm
        simp [terminalStatus] at hterm
      · rfl
  | setFee c f =>
      obtain ⟨_, _, rfl, _⟩ := updatePlatformFee_ok h
      rfl
  | setCollector c a =>
      obtain ⟨_, _, rfl, _⟩ := updateFeeCollector_ok h
      rfl

lemma step_dispute_persist {s : ContractState} {op : Op} {s' : ContractState}
    {tr : List Transfer} {j : Nat} (hg : GoodState s)
    (hd : (s.escrows j).disputeRaised = true)
    (h : applyOp s op = .ok (s', tr)) : (s'.escrows j).disputeRaised = true := by
  cases op with
  | create b sl a n eid =>
      obtain ⟨_, _, _, _, hb0, _, rfl, _⟩ := createEscrow_ok h
      rw [setEscrow_escrows]
      split_ifs with hj
      · subst hj
        rw [(hg.1 j).1 hb0] at hd
        simp [emptyEscrow] at hd
      · exact hd
  | fund c eid =>
      obtain ⟨hst, _, rfl, _⟩ := fundEscrow_ok h
      rw [setEscrow_escrows]
      split_ifs with hj
      · subst hj
        exact hd
      · exact hd
  | release c eid =>
      obtain ⟨hst, _, hdr, hcomp⟩ := releaseFunds_ok h
      obtain ⟨_, rfl, _⟩ := completeEscrow_ok hcomp
      rw [setEscrow_escrows]
      split_ifs with hj
      · subst hj
        exact hd
      · exact hd
  | autoRel n eid =>
      obtain ⟨hst, _, hdr, hcomp⟩ := autoRelease_ok h
      obtain ⟨_, rfl, _⟩ := completeEscrow_ok hcomp
      rw [setEscrow_escrows]
      split_ifs with hj
      · subst hj
        exact hd
      · exact hd
  | dispute c eid =>
      obtain ⟨hst, _, _, rfl, _⟩ := raiseDispute_ok h
      rw [setEscrow_escrows]
      split_ifs with hj
      · rfl
      · exact hd
  | resolve c eid p =>
      obtain ⟨_, hst, _, _, rfl, _⟩ := resolveDispute_ok h
      rw [setEscrow_escrows]
      split_ifs with hj
      · subst hj
        exact hd
      · exact hd
  | setFee c f =>
      obtain ⟨_, _, rfl, _⟩ := updatePlatformFee_ok h
      exact hd
  | setCollector c a =>
      obtain ⟨_, _, rfl, _⟩ := updateFeeCollector_ok h
      exact hd

lemma step_autoReleaseTime_frozen {s : ContractState} {op : Op} {s' : ContractState}
    {tr : List Transfer} {j : Nat} (hb : (s.escrows j).buyer ≠ 0)
    (h : applyOp s op = .ok (s', tr)) :
    (s'.escrows j).autoReleaseTime = (s.escrows j).autoReleaseTime := by
  cases op with
  | create b sl a n eid =>
      obtain ⟨_, _, _, _, hb0, _, rfl, _⟩ := createEscrow_ok h
      rw [setEscrow_escrows]
      split_ifs with hj
      · subst hj
        exact absurd hb0 hb
      · rfl
  | fund c eid =>
      obtain ⟨_, _, rfl, _⟩ := fundEscrow_ok h
      rw [setEscrow_escrows]
      split_ifs with hj
      · subst hj
        rfl
      · rfl
  | release c eid =>
      obtain ⟨_, _, _, hcomp⟩ := releaseFunds_ok h
      obtain ⟨_, rfl, _⟩ := completeEscrow_ok hcomp
      rw [setEscrow_escrows]
      split_ifs with hj
      · subst hj
        rfl
      · rfl
  | autoRel n eid =>
      obtain ⟨_, _, _, hcomp⟩ := autoRelease_ok h
      obtain ⟨_, rfl, _⟩ := completeEscrow_ok hcomp
      rw [setEscrow_escrows]
      split_ifs with hj
      · subst hj
        rfl
      · rfl
  | dispute c eid =>
      obtain ⟨_, _, _, rfl, _⟩ := raiseDispute_ok h
      rw [setEscrow_escrows]
      split_ifs with hj
      · subst hj
        rfl
      · rfl
  | resolve c eid p =>
      obtain ⟨_, _, _, _, rfl, _⟩ := resolveDispute_ok h
      rw [setEscrow_escrows]
      split_ifs with hj
      · subst hj
        rfl
      · rfl
  | setFee c f =>
      obtain ⟨_, _, rfl, _⟩ := updatePlatformFee_ok h
      rfl
  | setCollector c a =>
      obtain ⟨_, _, rfl, _⟩ := updateFeeCollector_ok h
      rfl

/-! ## Settlement arithmetic -/

lemma fee_le_amount (amount bps : Nat) (h : bps ≤ 10000) :
    amount * bps / 10000 ≤ amount := by
  have h2 : amount * bps ≤ amount * 10000 := Nat.mul_le_mul_left amount h
  omega

lemma share_le_amount (amount p : Nat) (hp : p ≤ 100) :
    amount * p / 100 ≤ amount := by
  have h2 : amount * p ≤ amount * 100 := Nat.mul_le_mul_left amount hp
  omega

lemma releasePayout_sum (seller fc amount bps : Nat) (h : bps ≤ 10000) :
    ((releasePayout seller fc amount bps).map Transfer.amount).sum = amount := by
  have := fee_le_amount amount bps h
  simp [releasePayout]
  omega

lemma disputePayout_sum (buyer seller fc amount p bps : Nat)
    (hp : p ≤ 100) (hb : bps ≤ 10000) :
    ((disputePayout buyer seller fc amount p bps).map Transfer.amount).sum = amount := by
  have h1 := share_le_amount amount p hp
  have h2 := fee_le_amount (amount - amount * p / 100) bps hb
  simp only [disputePayout]
  split_ifs
  all_goals simp_all
  all_goals omega

lemma disputePayout_zero (buyer seller fc amount bps : Nat) (h : 0 < amount) :
    disputePayout buyer seller fc amount 0 bps = releasePayout seller fc amount bps := by
  simp [disputePayout, releasePayout, h]

lemma disputePayout_hundred (buyer seller fc amount bps : Nat) (h : 0 < amount) :
    disputePayout buyer seller fc amount 100 bps = [⟨buyer, amount⟩] := by
  have hc : amount * 100 / 100 = amount := by
    omega
  simp [disputePayout, hc, h]


/-! ## Claim theorems -/

/-- C1: completing an escrow via `releaseFunds` or `autoRelease` transfers
exactly `fee = amount * feeBps / 10000` (truncating division) to the fee
collector and `sellerNet = amount - fee` to the seller, so the payout
transfers sum to `amount` exactly; and `resolveDispute(buyerShare)`
transfers `buyerAmount = amount * buyerShare / 100` to the buyer plus a
seller net and fee summing with it to `amount` exactly, for every
`feeBps ≤ 1000`. -/
theorem payout_sum_exact :
    (∀ s sender eid s' tr, s.platformFeeBps ≤ 1000 →
      releaseFunds s sender eid = .ok (s', tr) →
      tr = releasePayout (s.escrows eid).seller s.feeCollector
        (s.escrows eid).amount s.platformFeeBps ∧
      (tr.map Transfer.amount).sum = (s.escrows eid).amount) ∧
    (∀ s now eid s' tr, s.platformFeeBps ≤ 1000 →
      autoRelease s now eid = .ok (s', tr) →
      tr = releasePayout (s.escrows eid).seller s.feeCollector
        (s.escrows eid).amount s.platformFeeBps ∧
      (tr.map Transfer.amount).sum = (s.escrows eid).amount) ∧
    (∀ s sender eid p s' tr, s.platformFeeBps ≤ 1000 →
      resolveDispute s sender eid p = .ok (s', tr) →
      tr = disputePayout (s.escrows eid).buyer (s.escrows eid).seller
        s.feeCollector (s.escrows eid).amount p s.platformFeeBps ∧
      (tr.map Transfer.amount).sum = (s.escrows eid).amount) := by
  refine ⟨?_, ?_, ?_⟩
  · intro s sender eid s' tr hfee h
    obtain ⟨_, _, _, hcomp⟩ := releaseFunds_ok h
    obtain ⟨_, _, rfl⟩ := completeEscrow_ok hcomp
    exact ⟨rfl, releasePayout_sum _ _ _ _ (le_trans hfee (by norm_num))⟩
  · intro s now eid s' tr hfee h
    obtain ⟨_, _, _, hcomp⟩ := autoRelease_ok h
    obtain ⟨_, _, rfl⟩ := completeEscrow_ok hcomp
    exact ⟨rfl, releasePayout_sum _ _ _ _ (le_trans hfee (by norm_num))⟩
  · intro s sender eid p s' tr hfee h
    obtain ⟨_, _, hp, _, _, rfl⟩ := resolveDispute_ok h
    exact ⟨rfl, disputePayout_sum _ _ _ _ _ _ hp (le_trans hfee (by norm_num))⟩

/-- Witness for C1 at the concrete funded and disputed escrows of amount
1000000 with the default 50 bps fee. -/
theorem payout_sum_exact_witness :
    (wFunded.platformFeeBps ≤ 1000 ∧
      releaseFunds wFunded 1 9 =
        .ok (stepState wFunded (.release 1 9), stepTransfers wFunded (.release 1 9)) ∧
      (stepTransfers wFunded (.release 1 9) =
        releasePayout (wFunded.escrows 9).seller wFunded.feeCollector
          (wFunded.escrows 9).amount wFunded.platformFeeBps ∧
      ((stepTransfers wFunded (.release 1 9)).map Transfer.amount).sum =
        (wFunded.escrows 9).amount)) ∧
    (resolveDispute wDisputed 7 9 30 =
        .ok (stepState wDisputed (.resolve 7 9 30), stepTransfers wDisputed (.resolve 7 9 30)) ∧
      (stepTransfers wDisputed (.resolve 7 9 30) =
        disputePayout (wDisputed.escrows 9).buyer (wDisputed.escrows 9).seller
          wDisputed.feeCollector (wDisputed.escrows 9).amount 30 wDisputed.platformFeeBps ∧
      ((stepTransfers wDisputed (.resolve 7 9 30)).map Transfer.amount).sum =
        (wDisputed.escrows 9).amount)) :=
  ⟨⟨by decide, rfl, payout_sum_exact.1 wFunded 1 9 _ _ (by decide) rfl⟩,
   ⟨rfl, payout_sum_exact.2.2 wDisputed 7 9 30 _ _ (by decide) rfl⟩⟩

/-- C6: `createEscrow` succeeds only when buyer and seller are distinct
non-null principals and the amount is positive; when buyer = seller, either
party is null, or amount = 0 it fails with `InvalidInput` and the escrow
store is unchanged (no record inserted under any identifier). -/
theorem create_validation :
    (∀ s b sl a n eid s' tr, createEscrow s b sl a n eid = .ok (s', tr) →
      b ≠ 0 ∧ sl ≠ 0 ∧ b ≠ sl ∧ 0 < a) ∧
    (∀ s b sl a n eid, (b = 0 ∨ sl = 0 ∨ b = sl ∨ a = 0) →
      createEscrow s b sl a n eid = .error .InvalidInput ∧
      stepState s (.create b sl a n eid) = s) := by
  refine ⟨?_, ?_⟩
  · intro s b sl a n eid s' tr h
    obtain ⟨hb, hsl, hbsl, ha, _⟩ := createEscrow_ok h
    exact ⟨hb, hsl, hbsl, Nat.pos_of_ne_zero ha⟩
  · intro s b sl a n eid hviol
    have herr : createEscrow s b sl a n eid = .error .InvalidInput := by
      simp only [createEscrow]
      split_ifs <;> first | rfl | tauto
    exact ⟨herr, stepState_eq_of_error herr⟩

/-- Witness for C6: a valid creation on the deployed state, and an invalid
one with buyer = seller. -/
theorem create_validation_witness :
    (createEscrow (initState 7 5) 1 2 100 0 9 =
        .ok (stepState (initState 7 5) (.create 1 2 100 0 9),
             stepTransfers (initState 7 5) (.create 1 2 100 0 9)) ∧
      ((1 : Nat) ≠ 0 ∧ (2 : Nat) ≠ 0 ∧ (1 : Nat) ≠ 2 ∧ (0 : Nat) < 100)) ∧
    (((3 : Nat) = 0 ∨ (3 : Nat) = 0 ∨ (3 : Nat) = 3 ∨ (100 : Nat) = 0) ∧
      createEscrow (initState 7 5) 3 3 100 0 9 = .error .InvalidInput ∧
      stepState (initState 7 5) (.create 3 3 100 0 9) = initState 7 5) :=
  ⟨⟨rfl, create_validation.1 (initState 7 5) 1 2 100 0 9 _ _ rfl⟩,
   ⟨by tauto, create_validation.2 (initState 7 5) 3 3 100 0 9 (by tauto)⟩⟩

/-- C9: manual release by any caller other than the buyer (in particular
the seller) on a funded escrow fails with `Unauthorized`, emits no
transfers, and leaves the stored record and the whole state exactly as it
was. -/
theorem release_unauthorized :
    ∀ s c eid, (s.escrows eid).status = .FUNDED → c ≠ (s.escrows eid).buyer →
      releaseFunds s c eid = .error .Unauthorized ∧
      stepState s (.release c eid) = s ∧ stepTransfers s (.release c eid) = [] := by
  intro s c eid hst hc
  have herr : releaseFunds s c eid = .error .Unauthorized := by
    simp [releaseFunds, hst, hc]
  refine ⟨herr, stepState_eq_of_error herr, ?_⟩
  simp only [stepTransfers]
  rw [show applyOp s (.release c eid) = releaseFunds s c eid from rfl, herr]

/-- Witness for C9: the seller (address 2) attempting release on the funded
escrow of `wFunded`. -/
theorem release_unauthorized_witness :
    (wFunded.escrows 9).status = .FUNDED ∧ (2 : Nat) ≠ (wFunded.escrows 9).buyer ∧
    (releaseFunds wFunded 2 9 = .error .Unauthorized ∧
      stepState wFunded (.release 2 9) = wFunded ∧
      stepTransfers wFunded (.release 2 9) = []) :=
  ⟨by decide, by decide, release_unauthorized wFunded 2 9 (by decide) (by decide)⟩

/-- C10: in every reachable state a funded escrow has a clear dispute flag
(`status = FUNDED → disputeRaised = false`), so the `disputeRaised = false`
guards of `releaseFunds` and `autoRelease` are never the failing condition
on a funded escrow: release by the buyer, and auto-release past the
deadline, never fail with `InvalidState` there. -/
theorem funded_implies_undisputed :
    (∀ s eid, Reachable s → (s.escrows eid).status = .FUNDED →
      (s.escrows eid).disputeRaised = false) ∧
    (∀ s c eid, Reachable s → (s.escrows eid).status = .FUNDED →
      c = (s.escrows eid).buyer → releaseFunds s c eid ≠ .error .InvalidState) ∧
    (∀ s now eid, Reachable s → (s.escrows eid).status = .FUNDED →
      (s.escrows eid).autoReleaseTime ≤ now →
      autoRelease s now eid ≠ .error .InvalidState) := by
  have main : ∀ s eid, Reachable s → (s.escrows eid).status = .FUNDED →
      (s.escrows eid).disputeRaised = false := by
    intro s eid hr hst
    exact ((reachable_good hr).1 eid).2.2 (Or.inr hst)
  refine ⟨main, ?_, ?_⟩
  · intro s c eid hr hst hc
    have hd := main s eid hr hst
    simp [releaseFunds, completeEscrow, hst, hc, hd]
    split_ifs <;> simp
  · intro s now eid hr hst hnow
    have hd := main s eid hr hst
    simp [autoRelease, completeEscrow, hst, hd, Nat.not_lt.mpr hnow]
    split_ifs <;> simp

/-- Witness for C10 at the reachable funded state `wFunded`. -/
theorem funded_implies_undisputed_witness :
    ((wFunded.escrows 9).status = .FUNDED ∧ (wFunded.escrows 9).disputeRaised = false) ∧
    releaseFunds wFunded 1 9 ≠ .error .InvalidState ∧
    autoRelease wFunded 604800 9 ≠ .error .InvalidState := by
  have hreach : Reachable wFunded :=
    reachable_runOps (.init 7 5 (by decide) (by decide)) (by decide)
  exact ⟨⟨by decide, funded_implies_undisputed.1 wFunded 9 hreach (by decide)⟩,
    funded_implies_undisputed.2.1 wFunded 1 9 hreach (by decide) (by decide),
    funded_implies_undisputed.2.2 wFunded 604800 9 hreach (by decide) (by decide)⟩

/-- Counterexample to C2: on the reachable disputed escrow of `wDisputed`,
`resolveDispute` succeeds and moves the record to `COMPLETED`, yet the
stored `disputeRaised` flag is still `true` afterwards — it is not cleared
to `false` as the claim states. -/
theorem dispute_flag_not_cleared_cex :
    (wDisputed.escrows 9).status = .DISPUTED ∧
    (wDisputed.escrows 9).disputeRaised = true ∧
    resolveDispute wDisputed 7 9 50 =
      .ok (stepState wDisputed (.resolve 7 9 50), stepTransfers wDisputed (.resolve 7 9 50)) ∧
    ((stepState wDisputed (.resolve 7 9 50)).escrows 9).status = .COMPLETED ∧
    ((stepState wDisputed (.resolve 7 9 50)).escrows 9).disputeRaised = true :=
  ⟨rfl, rfl, rfl, rfl, rfl⟩

/-- C2 (amended): once `disputeRaised` becomes true it is never cleared by
any operation — in particular a successful `resolveDispute` moves the
record to `COMPLETED` but leaves `disputeRaised` exactly as it was (still
true on a disputed escrow). -/
theorem dispute_flag_persistent :
    (∀ s op s' tr j, Reachable s → applyOp s op = .ok (s', tr) →
      (s.escrows j).disputeRaised = true → (s'.escrows j).disputeRaised = true) ∧
    (∀ s c eid p s' tr, resolveDispute s c eid p = .ok (s', tr) →
      (s'.escrows eid).status = .COMPLETED ∧
      (s'.escrows eid).disputeRaised = (s.escrows eid).disputeRaised) := by
  refine ⟨?_, ?_⟩
  · intro s op s' tr j hr h hd
    exact step_dispute_persist (reachable_good hr) hd h
  · intro s c eid p s' tr h
    obtain ⟨_, _, _, _, rfl, _⟩ := resolveDispute_ok h
    rw [setEscrow_escrows_self]
    exact ⟨rfl, rfl⟩

/-- Witness for amended C2 at the reachable disputed state `wDisputed`. -/
theorem dispute_flag_persistent_witness :
    ((wDisputed.escrows 9).disputeRaised = true ∧
      ((stepState wDisputed (.setFee 7 0)).escrows 9).disputeRaised = true) ∧
    (((stepState wDisputed (.resolve 7 9 50)).escrows 9).status = .COMPLETED ∧
      ((stepState wDisputed (.resolve 7 9 50)).escrows 9).disputeRaised =
        (wDisputed.escrows 9).disputeRaised) := by
  have hreach : Reachable wDisputed :=
    reachable_runOps (.init 7 5 (by decide) (by decide)) (by decide)
  exact ⟨⟨by decide,
      dispute_flag_persistent.1 wDisputed (.setFee 7 0) _ _ 9 hreach rfl (by decide)⟩,
    dispute_flag_persistent.2 wDisputed 7 9 50 _ _ rfl⟩

/-- Counterexample to C3: on the reachable state `sFeeZero` the platform
fee is 0 bps, yet manual release still attempts a zero-amount transfer to
the fee collector (address 5) — the fee transfer is not skipped in the
single-release path. -/
theorem zero_fee_transfer_attempted_cex :
    sFeeZero.platformFeeBps = 0 ∧ sFeeZero.feeCollector = 5 ∧
    releaseFunds sFeeZero 1 9 =
      .ok (stepState sFeeZero (.release 1 9), [⟨2, 100⟩, ⟨5, 0⟩]) ∧
    (⟨5, 0⟩ : Transfer) ∈ [(⟨2, 100⟩ : Transfer), ⟨5, 0⟩] :=
  ⟨rfl, rfl, rfl, by decide⟩

/-- C3 (amended): `resolveDispute` skips zero computed shares — with
`buyerShare = 100` only the buyer transfer is attempted (no seller or fee
transfer) and with `buyerShare = 0` no buyer transfer is attempted — but
the single-release path (`releaseFunds`/`autoRelease`) always attempts both
the seller and the fee-collector transfer, including a zero-amount fee
transfer when `feeBps = 0`, and `resolveDispute` likewise always attempts
the fee transfer when the seller share is positive. -/
theorem zero_share_skip_behaviour :
    (∀ s c eid s' tr, 0 < (s.escrows eid).amount →
      resolveDispute s c eid 100 = .ok (s', tr) →
      tr = [⟨(s.escrows eid).buyer, (s.escrows eid).amount⟩]) ∧
    (∀ s c eid s' tr, 0 < (s.escrows eid).amount →
      resolveDispute s c eid 0 = .ok (s', tr) →
      tr = releasePayout (s.escrows eid).seller s.feeCollector
        (s.escrows eid).amount s.platformFeeBps) ∧
    (∀ s c eid s' tr, releaseFunds s c eid = .ok (s', tr) →
      tr = releasePayout (s.escrows eid).seller s.feeCollector
        (s.escrows eid).amount s.platformFeeBps ∧ tr.length = 2) ∧
    (∀ s now eid s' tr, autoRelease s now eid = .ok (s', tr) →
      tr = releasePayout (s.escrows eid).seller s.feeCollector
        (s.escrows eid).amount s.platformFeeBps ∧ tr.length = 2) := by
  refine ⟨?_, ?_, ?_, ?_⟩
  · intro s c eid s' tr ha h
    obtain ⟨_, _, _, _, _, rfl⟩ := resolveDispute_ok h
    exact disputePayout_hundred _ _ _ _ _ ha
  · intro s c eid s' tr ha h
    obtain ⟨_, _, _, _, _, rfl⟩ := resolveDispute_ok h
    exact disputePayout_zero _ _ _ _ _ ha
  · intro s c eid s' tr h
    obtain ⟨_, _, _, hcomp⟩ := releaseFunds_ok h
    obtain ⟨_, _, rfl⟩ := completeEscrow_ok hcomp
    exact ⟨rfl, rfl⟩
  · intro s now eid s' tr h
    obtain ⟨_, _, _, hcomp⟩ := autoRelease_ok h
    obtain ⟨_, _, rfl⟩ := completeEscrow_ok hcomp
    exact ⟨rfl, rfl⟩

/-- Witness for amended C3 at the concrete disputed and zero-fee states. -/
theorem zero_share_skip_behaviour_witness :
    (0 < (wDisputed.escrows 9).amount ∧
      stepTransfers wDisputed (.resolve 7 9 100) =
        [⟨(wDisputed.escrows 9).buyer, (wDisputed.escrows 9).amount⟩]) ∧
    (stepTransfers wDisputed (.resolve 7 9 0) =
      releasePayout (wDisputed.escrows 9).seller wDisputed.feeCollector
        (wDisputed.escrows 9).amount wDisputed.platformFeeBps) ∧
    (stepTransfers sFeeZero (.release 1 9) =
      releasePayout (sFeeZero.escrows 9).seller sFeeZero.feeCollector
        (sFeeZero.escrows 9).amount sFeeZero.platformFeeBps ∧
      (stepTransfers sFeeZero (.release 1 9)).length = 2) :=
  ⟨⟨by decide, zero_share_skip_behaviour.1 wDisputed 7 9 _ _ (by decide) rfl⟩,
   zero_share_skip_behaviour.2.1 wDisputed 7 9 _ _ (by decide) rfl,
   zero_share_skip_behaviour.2.2.1 sFeeZero 1 9 _ _ rfl⟩

/-- Counterexample to C4: looking up a never-created identifier does not
fail with `NotFound` — the contract view `getEscrow` returns the default
all-zero record, and the service-level read returns null rather than a
typed failure. -/
theorem get_unknown_no_failure_cex :
    getEscrow (initState 1 2) 5 = emptyEscrowView ∧
    serviceGetEscrow (fun _ => none) 5 = none :=
  ⟨rfl, rfl⟩

/-- C4 (amended): looking up a never-created identifier does not fail: the
contract `getEscrow` returns the all-zero default record (null buyer and
seller, zero amount) — distinguishable from any real escrow only because
created records always carry a non-null buyer — and the service-level
`getEscrow` returns null (no record) rather than a `NotFound` failure. -/
theorem get_unknown_returns_default :
    (∀ s eid, Reachable s → (s.escrows eid).buyer = 0 →
      getEscrow s eid = emptyEscrowView) ∧
    (∀ s eid s' tr b sl a n, Reachable s → createEscrow s b sl a n eid = .ok (s', tr) →
      (s'.escrows eid).buyer ≠ 0) ∧
    (∀ (db : Nat → Option Escrow) eid, db eid = none → serviceGetEscrow db eid = none) := by
  refine ⟨?_, ?_, ?_⟩
  · intro s eid hr hb
    have he : s.escrows eid = emptyEscrow := ((reachable_good hr).1 eid).1 hb
    simp [getEscrow, he, emptyEscrow, emptyEscrowView]
  · intro s eid s' tr b sl a n hr h
    obtain ⟨hb, _, _, _, _, _, rfl, _⟩ := createEscrow_ok h
    rw [setEscrow_escrows_self]
    exact hb
  · intro db eid h
    simpa [serviceGetEscrow] using h

/-- Witness for amended C4 on the freshly deployed state. -/
theorem get_unknown_returns_default_witness :
    ((initState 1 2).escrows 5).buyer = 0 ∧
    getEscrow (initState 1 2) 5 = emptyEscrowView ∧
    ((stepState (initState 7 5) (.create 1 2 100 0 9)).escrows 9).buyer ≠ 0 ∧
    serviceGetEscrow (fun _ => none) 5 = none := by
  have hreach : Reachable (initState 1 2) := .init 1 2 (by decide) (by decide)
  exact ⟨rfl, get_unknown_returns_default.1 (initState 1 2) 5 hreach rfl,
    get_unknown_returns_default.2.1 (initState 7 5) 9 _ _ 1 2 100 0
      (.init 7 5 (by decide) (by decide)) rfl,
    get_unknown_returns_default.2.2 (fun _ => none) 5 rfl⟩

/-- C5: status is monotonic — along every sequence of operations from a
reachable state the status of every escrow never moves down the order
`Created < Funded < {Completed, Disputed, Refunded, Cancelled}`; no
successful operation modifies an escrow in a terminal status; and funding
an already-funded escrow fails with `InvalidState` leaving the state
unchanged. -/
theorem status_monotone :
    (∀ s ops j, Reachable s → (∀ op ∈ ops, opSenderNonzero op) →
      statusRank (s.escrows j).status ≤ statusRank ((runOps s ops).escrows j).status) ∧
    (∀ s op s' tr j, Reachable s → terminalStatus (s.escrows j).status →
      applyOp s op = .ok (s', tr) → s'.escrows j = s.escrows j) ∧
    (∀ s c eid, (s.escrows eid).status = .FUNDED →
      fundEscrow s c eid = .error .InvalidState ∧ stepState s (.fund c eid) = s) := by
  refine ⟨?_, ?_, ?_⟩
  · intro s ops j hr hall
    exact runOps_rank_mono hr hall j
  · intro s op s' tr j hr hterm h
    exact step_terminal_frozen (reachable_good hr) hterm h
  · intro s c eid hst
    have herr : fundEscrow s c eid = .error .InvalidState := by
      simp [fundEscrow, hst]
    exact ⟨herr, stepState_eq_of_error herr⟩

/-- Witness for C5: a create-fund sequence raises the rank of slot 9 from 0
to 1, a fee change leaves the completed escrow of `wCompleted` untouched,
and funding the already-funded `wFunded` fails. -/
theorem status_monotone_witness :
    statusRank (((initState 7 5).escrows 9).status) ≤
      statusRank ((runOps (initState 7 5) [.create 1 2 100 0 9, .fund 1 9]).escrows 9).status ∧
    (terminalStatus ((wCompleted.escrows 9).status) ∧
      (stepState wCompleted (.setFee 7 100)).escrows 9 = wCompleted.escrows 9) ∧
    (fundEscrow wFunded 1 9 = .error .InvalidState ∧
      stepState wFunded (.fund 1 9) = wFunded) := by
  have h1 : Reachable (initState 7 5) := .init 7 5 (by decide) (by decide)
  have h2 : Reachable wCompleted :=
    reachable_runOps (.init 7 5 (by decide) (by decide)) (by decide)
  exact ⟨status_monotone.1 (initState 7 5) [.create 1 2 100 0 9, .fund 1 9] 9 h1
      (by decide),
    ⟨Or.inl (by decide), status_monotone.2.1 wCompleted (.setFee 7 100) _ _ 9 h2 (Or.inl (by decide)) rfl⟩,
    status_monotone.2.2 wFunded 1 9 (by decide)⟩

/-- C7: every created escrow stores `autoReleaseTime = createdAt + 7 days`;
the deadline of an existing escrow is never modified by any operation;
`autoRelease` before the deadline fails with `InvalidState` leaving the
state unchanged; and `autoRelease` at or past the deadline on a funded,
undisputed escrow (whose fee product does not overflow) succeeds and sets
the status to `COMPLETED`. -/
theorem auto_release_deadline :
    (∀ s b sl a n eid s' tr, createEscrow s b sl a n eid = .ok (s', tr) →
      (s'.escrows eid).createdAt = n ∧
      (s'.escrows eid).autoReleaseTime = (s'.escrows eid).createdAt + AUTO_RELEASE_PERIOD) ∧
    (∀ s op s' tr j, (s.escrows j).buyer ≠ 0 → applyOp s op = .ok (s', tr) →
      (s'.escrows j).autoReleaseTime = (s.escrows j).autoReleaseTime) ∧
    (∀ s now eid, now < (s.escrows eid).autoReleaseTime →
      autoRelease s now eid = .error .InvalidState ∧
      stepState s (.autoRel now eid) = s) ∧
    (∀ s now eid, (s.escrows eid).status = .FUNDED →
      (s.escrows eid).disputeRaised = false →
      (s.escrows eid).autoReleaseTime ≤ now →
      (s.escrows eid).amount * s.platformFeeBps < UINT256 →
      autoRelease s now eid =
        .ok (setEscrow s eid { s.escrows eid with status := .COMPLETED },
          releasePayout (s.escrows eid).seller s.feeCollector
            (s.escrows eid).amount s.platformFeeBps) ∧
      ((setEscrow s eid { s.escrows eid with status := .COMPLETED }).escrows eid).status
        = .COMPLETED) := by
  refine ⟨?_, ?_, ?_, ?_⟩
  · intro s b sl a n eid s' tr h
    obtain ⟨_, _, _, _, _, _, rfl, _⟩ := createEscrow_ok h
    rw [setEscrow_escrows_self]
    exact ⟨rfl, rfl⟩
  · intro s op s' tr j hb h
    exact step_autoReleaseTime_frozen hb h
  · intro s now eid hnow
    have herr : autoRelease s now eid = .error .InvalidState := by
      by_cases hst : (s.escrows eid).status = .FUNDED
      · simp [autoRelease, hst, hnow]
      · simp [autoRelease, hst]
    exact ⟨herr, stepState_eq_of_error herr⟩
  · intro s now eid hst hd hle hof
    have h1 : autoRelease s now eid = completeEscrow s eid := by
      simp [autoRelease, hst, hd, Nat.not_lt.mpr hle]
    have h2 : completeEscrow s eid =
        .ok (setEscrow s eid { s.escrows eid with status := .COMPLETED },
          releasePayout (s.escrows eid).seller s.feeCollector
            (s.escrows eid).amount s.platformFeeBps) := by
      simp [completeEscrow, Nat.not_le.mpr hof, releasePayout]
    refine ⟨h1.trans h2, ?_⟩
    rw [setEscrow_escrows_self]

/-- Witness for C7: creation at time 3, deadline immutability under a fee
change, a too-early auto-release, and a successful one at the deadline, all
on the concrete states. -/
theorem auto_release_deadline_witness :
    (((stepState (initState 7 5) (.create 1 2 100 3 9)).escrows 9).createdAt = 3 ∧
      ((stepState (initState 7 5) (.create 1 2 100 3 9)).escrows 9).autoReleaseTime =
        ((stepState (initState 7 5) (.create 1 2 100 3 9)).escrows 9).createdAt +
          AUTO_RELEASE_PERIOD) ∧
    ((stepState wFunded (.setFee 7 100)).escrows 9).autoReleaseTime =
      (wFunded.escrows 9).autoReleaseTime ∧
    (autoRelease wFunded 0 9 = .error .InvalidState ∧
      stepState wFunded (.autoRel 0 9) = wFunded) ∧
    (autoRelease wFunded 604800 9 =
        .ok (setEscrow wFunded 9 { wFunded.escrows 9 with status := .COMPLETED },
          releasePayout (wFunded.escrows 9).seller wFunded.feeCollector
            (wFunded.escrows 9).amount wFunded.platformFeeBps) ∧
      ((setEscrow wFunded 9 { wFunded.escrows 9 with status := .COMPLETED }).escrows 9).status
        = .COMPLETED) :=
  ⟨auto_release_deadline.1 (initState 7 5) 1 2 100 3 9 _ _ rfl,
   auto_release_deadline.2.1 wFunded (.setFee 7 100) _ _ 9 (by decide) rfl,
   auto_release_deadline.2.2.1 wFunded 0 9 (by decide),
   auto_release_deadline.2.2.2 wFunded 604800 9 (by decide) (by decide) (by decide)
     (by decide)⟩

/-- C8: on a disputed escrow of positive amount, `resolveDispute` with
`buyerShare = 0` emits exactly the transfers a full single release of that
escrow would (seller net plus fee at the prevailing rate, nothing to the
buyer), and `resolveDispute` with `buyerShare = 100` transfers the whole
amount to the buyer with no fee deducted. -/
theorem resolve_extreme_shares :
    (∀ s eid s' tr cs ctr, 0 < (s.escrows eid).amount →
      resolveDispute s s.owner eid 0 = .ok (s', tr) →
      completeEscrow s eid = .ok (cs, ctr) → tr = ctr) ∧
    (∀ s eid s' tr, 0 < (s.escrows eid).amount →
      resolveDispute s s.owner eid 100 = .ok (s', tr) →
      tr = [⟨(s.escrows eid).buyer, (s.escrows eid).amount⟩]) := by
  refine ⟨?_, ?_⟩
  · intro s eid s' tr cs ctr ha h hc
    obtain ⟨_, _, _, _, _, rfl⟩ := resolveDispute_ok h
    obtain ⟨_, _, rfl⟩ := completeEscrow_ok hc
    exact disputePayout_zero _ _ _ _ _ ha
  · intro s eid s' tr ha h
    obtain ⟨_, _, _, _, _, rfl⟩ := resolveDispute_ok h
    exact disputePayout_hundred _ _ _ _ _ ha

/-- Witness for C8 on the reachable disputed state `wDisputed` (amount
1000000, fee 50 bps). -/
theorem resolve_extreme_shares_witness :
    (0 < (wDisputed.escrows 9).amount ∧
      stepTransfers wDisputed (.resolve 7 9 0) =
        releasePayout (wDisputed.escrows 9).seller wDisputed.feeCollector
          (wDisputed.escrows 9).amount wDisputed.platformFeeBps) ∧
    stepTransfers wDisputed (.resolve 7 9 100) =
      [⟨(wDisputed.escrows 9).buyer, (wDisputed.escrows 9).amount⟩] :=
  ⟨⟨by decide,
    resolve_extreme_shares.1 wDisputed 9 (stepState wDisputed (.resolve 7 9 0))
      (stepTransfers wDisputed (.resolve 7 9 0))
      (setEscrow wDisputed 9 { wDisputed.escrows 9 with status := .COMPLETED })
      (releasePayout (wDisputed.escrows 9).seller wDisputed.feeCollector
        (wDisputed.escrows 9).amount wDisputed.platformFeeBps)
      (by decide) rfl rfl⟩,
   resolve_extreme_shares.2 wDisputed 9 _ _ (by decide) rfl⟩

end ProofPay
